import Mathlib

/-
Verification of the JerichoOS kernel core: a shallow embedding of the
scheduler (src/arch/aarch64/scheduler.rs), the GIC driver
(src/arch/aarch64/gic.rs), the IPC fabric (src/ipc.rs) and the
WebAssembly host-call bridge (src/wasm_runtime.rs), together with
theorems settling the spec claims about them.

Machine integers (u32, u64, usize) are modelled as Nat; wherever the
source can overflow or wrap, the reduction modulo 2 ^ w is written
explicitly.  Guest linear memory is a list of byte values.  MMIO is
modelled as the trace of (address, value) writes the driver performs.
-/

set_option maxRecDepth 10000

/-! ## Basic kernel types

CapabilityId (src/capability.rs is not part of the published sources;
the spec describes it as a cheap unique integer token) and TaskId
(src/main_aarch64.rs, `TaskId(u64)`) are integer ids. -/

/-- Modelled from the spec: capability ids are unforgeable unique integer
tokens (spec section 4.5); the defining module src/capability.rs is not
among the published sources, only its users are. -/
abbrev CapabilityId := Nat

/-- Task id, a small integer (src/main_aarch64.rs, struct TaskId). -/
abbrev TaskId := Nat

/-! ## WebAssembly host-call bridge (src/wasm_runtime.rs)

An `IpcMessage` is a pending delivery-queue entry.  The global mutable
state touched by the host imports is the subscriber registry
(MQTT_SUBSCRIBERS, a Vec of u32 client ids) and the delivery queue
(IPC_MESSAGE_QUEUE, a VecDeque of IpcMessage); both are passed and
returned explicitly.  Guest linear memory is passed as the byte list
`mem`; pointers and lengths are the usize values after the source's
`as usize` casts (a negative i32 sign-extends to at least 2 ^ 63 and
therefore always fails the bounds check, exactly as in the source). -/

structure IpcMessage where
  dest_client_id : Nat
  message : List Nat
deriving DecidableEq, Repr

/-- Byte slice data[ptr .. ptr + len] of guest linear memory. -/
def memSlice (mem : List Nat) (ptr len : Nat) : List Nat :=
  (mem.drop ptr).take len

/-- host_sys_print (src/wasm_runtime.rs lines 77 to 105): reads
`msg_len` bytes at `msg_ptr` from guest memory and logs them; on an
out-of-bounds range it logs an error and reads nothing.  The result is
the byte sequence logged, `none` when no guest memory was read.  (The
case of a module without a memory export behaves like the failure case
and is not modelled separately.) -/
def host_sys_print (mem : List Nat) (msg_ptr msg_len : Nat) : Option (List Nat) :=
  if msg_ptr + msg_len > mem.length then
    none
  else
    some (memSlice mem msg_ptr msg_len)

/-- host_sys_mqtt_subscribe (src/wasm_runtime.rs lines 116 to 155):
bounds-checks the topic, then registers `client_id` in the subscriber
registry unless it is already present.  Returns the i32 result and the
new registry. -/
def host_sys_mqtt_subscribe (mem : List Nat) (client_id : Nat)
    (topic_ptr topic_len : Nat) (subscribers : List Nat) :
    Int × List Nat :=
  if topic_ptr + topic_len > mem.length then
    (-1, subscribers)
  else
    let subscribers' :=
      if subscribers.contains client_id then subscribers
      else subscribers ++ [client_id]
    (0, subscribers')

/-- Wrap a Nat into the i32 value produced by Rust's `as i32` cast. -/
def i32ofNat (n : Nat) : Int :=
  (((n : Int) + 2 ^ 31) % 2 ^ 32) - 2 ^ 31

/-- host_sys_mqtt_publish (src/wasm_runtime.rs lines 158 to 210):
bounds-checks topic and message, then enqueues one IpcMessage carrying
the message bytes for every registered subscriber, in registry order,
and returns the subscriber count as i32. -/
def host_sys_mqtt_publish (mem : List Nat)
    (topic_ptr topic_len msg_ptr msg_len : Nat)
    (subscribers : List Nat) (queue : List IpcMessage) :
    Int × List IpcMessage :=
  if topic_ptr + topic_len > mem.length ∨ msg_ptr + msg_len > mem.length then
    (-1, queue)
  else
    let msg := memSlice mem msg_ptr msg_len
    (i32ofNat subscribers.length,
     queue ++ subscribers.map (fun c => ⟨c, msg⟩))

/-- host_sys_ipc_send (src/wasm_runtime.rs lines 214 to 261): refuses
with -1 when the instance capability list is empty, bounds-checks the
message, then enqueues one IpcMessage for `dest` and returns 0. -/
def host_sys_ipc_send (caps : List CapabilityId) (mem : List Nat)
    (dest : Nat) (msg_ptr msg_len : Nat) (queue : List IpcMessage) :
    Int × List IpcMessage :=
  if caps.isEmpty then
    (-1, queue)
  else if msg_ptr + msg_len > mem.length then
    (-1, queue)
  else
    (0, queue ++ [⟨dest, memSlice mem msg_ptr msg_len⟩])

/-! ## The delivery pump (src/wasm_runtime.rs, deliver_pending_messages)

The pump repeatedly removes the first queued message addressed to
`client_id`, copies up to 512 bytes of its payload to guest offset
1024, and invokes the guest export subscriber_receive(1024, len).  The
guest invocation is external (the wasmi interpreter is outside the
core); its outcome is supplied by the oracle `invoke`, indexed by the
number of invocations made so far.  `memLen` is the length of the
subscriber's linear memory.  Each iteration is recorded as a
`DeliveryEvent` so that the copy and the invocation arguments are part
of the observable result. -/

structure DeliveryEvent where
  /-- Fixed guest offset the payload prefix is copied to (always 1024). -/
  offset : Nat
  /-- The bytes copied into guest memory. -/
  written : List Nat
  /-- Arguments passed to subscriber_receive: (ptr, len). -/
  args : Nat × Nat
  /-- Outcome of the guest invocation. -/
  ok : Bool
deriving DecidableEq, Repr

/-- Remove the first message for `client` from the queue; source:
`queue.iter().position(|m| m.dest_client_id == client_id)` followed by
`queue.remove(pos)`. -/
def removeFirstFor (client : Nat) :
    List IpcMessage → Option (IpcMessage × List IpcMessage)
  | [] => none
  | m :: rest =>
    if m.dest_client_id = client then some (m, rest)
    else (removeFirstFor client rest).map (fun p => (p.1, m :: p.2))

/-- One loop body of deliver_pending_messages, fuelled; the fuel is the
queue length, which bounds the number of removals.  `ninv` counts guest
invocations made so far (it indexes the oracle).  Returns the number of
successful invocations from this point on, the final queue, and the
trace of delivery events. -/
def deliverLoop (memLen client : Nat) (invoke : Nat → Bool) :
    Nat → List IpcMessage → Nat → Nat × List IpcMessage × List DeliveryEvent
  | 0, queue, _ => (0, queue, [])
  | fuel + 1, queue, ninv =>
    match removeFirstFor client queue with
    | none => (0, queue, [])
    | some (m, rest) =>
      let len := min m.message.length 512
      if 1024 + len ≤ memLen then
        let okNow := invoke ninv
        let ev : DeliveryEvent := ⟨1024, m.message.take len, (1024, len), okNow⟩
        let r := deliverLoop memLen client invoke fuel rest (ninv + 1)
        ((if okNow then 1 else 0) + r.1, r.2.1, ev :: r.2.2)
      else
        -- source: the message does not fit below memLen, log and `continue`
        -- (the popped message is dropped, no invocation happens)
        deliverLoop memLen client invoke fuel rest ninv

/-- deliver_pending_messages (src/wasm_runtime.rs lines 371 to 435).
The case of a subscriber without a memory export (which breaks the
loop) is not modelled: the oracle-based guest always has its memory of
length `memLen`. -/
def deliver_pending_messages (memLen client : Nat) (invoke : Nat → Bool)
    (queue : List IpcMessage) : Nat × List IpcMessage × List DeliveryEvent :=
  deliverLoop memLen client invoke queue.length queue 0

/-- Written from the claim, for comparison with the source function:
the claim states the pump stops at the first invocation failure (the
failed invocation is recorded, the remaining queue is kept as is). -/
def deliverClaimLoop (memLen client : Nat) (invoke : Nat → Bool) :
    Nat → List IpcMessage → Nat → Nat × List IpcMessage × List DeliveryEvent
  | 0, queue, _ => (0, queue, [])
  | fuel + 1, queue, ninv =>
    match removeFirstFor client queue with
    | none => (0, queue, [])
    | some (m, rest) =>
      let len := min m.message.length 512
      if 1024 + len ≤ memLen then
        let okNow := invoke ninv
        let ev : DeliveryEvent := ⟨1024, m.message.take len, (1024, len), okNow⟩
        if okNow then
          let r := deliverClaimLoop memLen client invoke fuel rest (ninv + 1)
          (1 + r.1, r.2.1, ev :: r.2.2)
        else
          (0, rest, [ev])
      else
        deliverClaimLoop memLen client invoke fuel rest ninv

/-- The delivery pump as the claim describes it: stop on the first
invocation failure. -/
def deliver_claim (memLen client : Nat) (invoke : Nat → Bool)
    (queue : List IpcMessage) : Nat × List IpcMessage × List DeliveryEvent :=
  deliverClaimLoop memLen client invoke queue.length queue 0

/-- The amended behaviour, written as a fold over the messages for
`client` in queue order: each message that fits is invoked (indexing
the oracle by invocation count), successes are counted, failures are
skipped, and the pump ends when the matching messages are exhausted,
leaving exactly the non-matching messages. -/
def deliverAmendedRun (memLen : Nat) (invoke : Nat → Bool) :
    List IpcMessage → Nat → Nat × List DeliveryEvent
  | [], _ => (0, [])
  | m :: ms, ninv =>
    let len := min m.message.length 512
    if 1024 + len ≤ memLen then
      let okNow := invoke ninv
      let ev : DeliveryEvent := ⟨1024, m.message.take len, (1024, len), okNow⟩
      let r := deliverAmendedRun memLen invoke ms (ninv + 1)
      ((if okNow then 1 else 0) + r.1, ev :: r.2)
    else
      deliverAmendedRun memLen invoke ms ninv

/-- The amended claim's description of the pump: process every queued
message for `client` in order, drop the non-fitting ones, count the
successful invocations, and keep the other clients' messages. -/
def deliver_amended (memLen client : Nat) (invoke : Nat → Bool)
    (queue : List IpcMessage) : Nat × List IpcMessage × List DeliveryEvent :=
  let r := deliverAmendedRun memLen invoke
    (queue.filter (fun m => m.dest_client_id = client)) 0
  (r.1, queue.filter (fun m => ¬ m.dest_client_id = client), r.2)

/-! ## IPC fabric (src/ipc.rs) -/

/-- Maximum message size in bytes (src/ipc.rs, MAX_MESSAGE_SIZE). -/
def MAX_MESSAGE_SIZE : Nat := 4096

/-- IPC error kinds (src/ipc.rs, enum IpcError). -/
inductive IpcError where
  | messageTooLarge
  | queueFull
  | endpointNotFound
  | permissionDenied
  | noMessage
deriving DecidableEq, Repr

/-- IPC message (src/ipc.rs, struct Message). -/
structure Message where
  sender : TaskId
  data : List Nat
  transferred_cap : Option CapabilityId
deriving DecidableEq, Repr

/-- Message::new (src/ipc.rs lines 29 to 39). -/
def Message.new (sender : TaskId) (data : List Nat) :
    Except IpcError Message :=
  if data.length > MAX_MESSAGE_SIZE then
    .error .messageTooLarge
  else
    .ok ⟨sender, data, none⟩

/-- IPC endpoint (src/ipc.rs, struct IpcEndpoint): a bounded message
queue plus the set of tasks blocked awaiting receive. -/
structure IpcEndpoint where
  id : CapabilityId
  messages : List Message
  waiting_tasks : List TaskId
  max_queue_size : Nat
deriving DecidableEq, Repr

/-- IpcEndpoint::new (src/ipc.rs lines 76 to 83). -/
def IpcEndpoint.new (id : CapabilityId) : IpcEndpoint :=
  ⟨id, [], [], 16⟩

/-- IpcEndpoint::send (src/ipc.rs lines 86 to 99). -/
def IpcEndpoint.send (ep : IpcEndpoint) (message : Message) :
    Except IpcError IpcEndpoint :=
  if ep.messages.length ≥ ep.max_queue_size then
    .error .queueFull
  else
    .ok { ep with messages := ep.messages ++ [message] }

/-- IpcEndpoint::try_receive (src/ipc.rs lines 102 to 104): pop the
front message, if any. -/
def IpcEndpoint.try_receive (ep : IpcEndpoint) :
    Option Message × IpcEndpoint :=
  match ep.messages with
  | [] => (none, ep)
  | m :: rest => (some m, { ep with messages := rest })

/-- IpcEndpoint::add_waiter (src/ipc.rs lines 112 to 116). -/
def IpcEndpoint.add_waiter (ep : IpcEndpoint) (task : TaskId) : IpcEndpoint :=
  if ep.waiting_tasks.contains task then ep
  else { ep with waiting_tasks := ep.waiting_tasks ++ [task] }

/-- IpcEndpoint::take_waiters (src/ipc.rs lines 119 to 121). -/
def IpcEndpoint.take_waiters (ep : IpcEndpoint) :
    List TaskId × IpcEndpoint :=
  (ep.waiting_tasks, { ep with waiting_tasks := [] })

/-- Endpoint registry (src/ipc.rs, struct IpcRegistry). -/
structure IpcRegistry where
  endpoints : List IpcEndpoint
deriving DecidableEq, Repr

/-- IpcRegistry::get_endpoint (src/ipc.rs lines 158 to 165): first
endpoint whose id equals `cap_id`. -/
def IpcRegistry.get_endpoint (reg : IpcRegistry) (cap_id : CapabilityId) :
    Option IpcEndpoint :=
  reg.endpoints.find? (fun ep => ep.id = cap_id)

/-- Replace the first endpoint whose id equals `cap_id` (models the
in-place mutation through get_endpoint_mut). -/
def updateEndpoint (cap_id : CapabilityId) (ep' : IpcEndpoint) :
    List IpcEndpoint → List IpcEndpoint
  | [] => []
  | ep :: rest =>
    if ep.id = cap_id then ep' :: rest
    else ep :: updateEndpoint cap_id ep' rest

/-! ### Task states and the wake path

The scheduler that `send_message` wakes tasks through
(crate::scheduler::SCHEDULER.lock()...unblock_task) belongs to the x86
build, whose scheduler module is not among the published sources; its
task-state map and `unblock_task` are modelled from the spec.  Task
states are shared with the AArch64 scheduler below. -/

/-- Task states (src/arch/aarch64/scheduler.rs, enum TaskState). -/
inductive TaskState where
  | ready
  | running
  | blocked
deriving DecidableEq, Repr

/-- The per-task state map of the scheduler `send_message` calls into,
as an association list from task id to state. -/
abbrev TaskStates := List (TaskId × TaskState)

/-- State of task `t` (first binding wins). -/
def getState (sts : TaskStates) (t : TaskId) : Option TaskState :=
  (sts.find? (fun p => p.1 = t)).map (fun p => p.2)

/-- Set the state of task `t` in every binding for `t`. -/
def setState (sts : TaskStates) (t : TaskId) (s : TaskState) : TaskStates :=
  sts.map (fun p => if p.1 = t then (p.1, s) else p)

/-- Modelled from the spec: `unblock_task` of the scheduler module that
is not among the published sources; spec section 4.6, waking a task in
a wait set transitions its state Blocked to Ready. -/
def unblock_task (sts : TaskStates) (t : TaskId) : TaskStates :=
  if getState sts t = some TaskState.blocked then setState sts t TaskState.ready
  else sts

/-- send_message (src/ipc.rs lines 201 to 230).  The global registry is
`reg?` (None before ipc::init, exactly the source's
`Option<IpcRegistry>`); the scheduler task-state map is `sts`.  The
source mutates the globals in place and every error path returns before
any mutation, so the embedding returns the unchanged state alongside
the error. -/
def send_message (sender : TaskId) (endpoint_cap : CapabilityId)
    (data : List Nat) (reg? : Option IpcRegistry) (sts : TaskStates) :
    Except IpcError Unit × Option IpcRegistry × TaskStates :=
  match Message.new sender data with
  | .error e => (.error e, reg?, sts)
  | .ok message =>
    match reg? with
    | none => (.error .endpointNotFound, reg?, sts)
    | some reg =>
      match reg.get_endpoint endpoint_cap with
      | none => (.error .endpointNotFound, reg?, sts)
      | some ep =>
        match ep.send message with
        | .error e => (.error e, reg?, sts)
        | .ok ep1 =>
          let (waiters, ep2) := ep1.take_waiters
          let reg' : IpcRegistry :=
            ⟨updateEndpoint endpoint_cap ep2 reg.endpoints⟩
          (.ok (), some reg', waiters.foldl unblock_task sts)

/-- Iterated IpcEndpoint::send, failing on the first failing send. -/
def sendAll (ep : IpcEndpoint) : List Message → Except IpcError IpcEndpoint
  | [] => .ok ep
  | m :: ms =>
    match ep.send m with
    | .error e => .error e
    | .ok ep' => sendAll ep' ms

/-- Repeated IpcEndpoint::try_receive, `count` calls, collecting the
messages received until the first empty answer. -/
def receiveList (ep : IpcEndpoint) : Nat → List Message
  | 0 => []
  | count + 1 =>
    match ep.try_receive with
    | (none, _) => []
    | (some m, ep') => m :: receiveList ep' count

/-- A wait-set operation: either IpcEndpoint::add_waiter for a task, or
IpcEndpoint::take_waiters (whose returned list is handed to the waker).
Used to state the wait-set invariant. -/
inductive WaiterOp where
  | add (t : TaskId)
  | take
deriving DecidableEq, Repr

/-- Apply one wait-set operation to an endpoint. -/
def applyWaiterOp (ep : IpcEndpoint) : WaiterOp → IpcEndpoint
  | .add t => ep.add_waiter t
  | .take => (ep.take_waiters).2

/-- Apply a sequence of wait-set operations. -/
def applyWaiterOps (ep : IpcEndpoint) (ops : List WaiterOp) : IpcEndpoint :=
  ops.foldl applyWaiterOp ep

/-! ## AArch64 scheduler (src/arch/aarch64/scheduler.rs)

Register values are u64, modelled as Nat (every source operation on
them is a plain copy except the frame address, whose wrapping
subtraction is reduced modulo 2 ^ 64).  The 16 KiB per-task stack byte
array takes no part in any claimed behaviour and is not carried in the
task record; the task's stack pointer lives in its context. -/

/-- ARM64 task context (src/arch/aarch64/task.rs, struct TaskContext):
x0 to x28, frame pointer, link register, SP, PC (ELR_EL1) and PSTATE
(SPSR_EL1). -/
structure TaskContext where
  x0 : Nat
  x1 : Nat
  x2 : Nat
  x3 : Nat
  x4 : Nat
  x5 : Nat
  x6 : Nat
  x7 : Nat
  x8 : Nat
  x9 : Nat
  x10 : Nat
  x11 : Nat
  x12 : Nat
  x13 : Nat
  x14 : Nat
  x15 : Nat
  x16 : Nat
  x17 : Nat
  x18 : Nat
  x19 : Nat
  x20 : Nat
  x21 : Nat
  x22 : Nat
  x23 : Nat
  x24 : Nat
  x25 : Nat
  x26 : Nat
  x27 : Nat
  x28 : Nat
  x29_fp : Nat
  x30_lr : Nat
  sp : Nat
  pc : Nat
  pstate : Nat
deriving DecidableEq, Repr

/-- TaskContext::new (src/arch/aarch64/task.rs): all fields zero. -/
def TaskContext.new : TaskContext :=
  ⟨0, 0, 0, 0, 0, 0, 0, 0, 0, 0, 0, 0, 0, 0, 0, 0, 0, 0, 0,
   0, 0, 0, 0, 0, 0, 0, 0, 0, 0, 0, 0, 0, 0, 0⟩

/-- EL1 exception frame, reconstructed from spec section 4.1 (x0 to
x30, SP_EL0, ELR_EL1, SPSR_EL1, 272 bytes) and the field accesses in
scheduler_switch_task; the defining module
src/arch/aarch64/exceptions.rs is not among the published sources. -/
structure ExceptionFrame where
  x0 : Nat
  x1 : Nat
  x2 : Nat
  x3 : Nat
  x4 : Nat
  x5 : Nat
  x6 : Nat
  x7 : Nat
  x8 : Nat
  x9 : Nat
  x10 : Nat
  x11 : Nat
  x12 : Nat
  x13 : Nat
  x14 : Nat
  x15 : Nat
  x16 : Nat
  x17 : Nat
  x18 : Nat
  x19 : Nat
  x20 : Nat
  x21 : Nat
  x22 : Nat
  x23 : Nat
  x24 : Nat
  x25 : Nat
  x26 : Nat
  x27 : Nat
  x28 : Nat
  x29 : Nat
  x30_lr : Nat
  sp_el0 : Nat
  elr_el1 : Nat
  spsr_el1 : Nat
deriving DecidableEq, Repr

/-- The register copy frame-to-context done by scheduler_switch_task
(src/arch/aarch64/scheduler.rs lines 236 to 274): every frame register
overwrites the context; SP is deliberately NOT updated, PC takes
ELR_EL1 and PSTATE takes SPSR_EL1. -/
def contextOfFrame (frame : ExceptionFrame) (ctx : TaskContext) : TaskContext :=
  { ctx with
    x0 := frame.x0, x1 := frame.x1, x2 := frame.x2, x3 := frame.x3
    x4 := frame.x4, x5 := frame.x5, x6 := frame.x6, x7 := frame.x7
    x8 := frame.x8, x9 := frame.x9, x10 := frame.x10, x11 := frame.x11
    x12 := frame.x12, x13 := frame.x13, x14 := frame.x14, x15 := frame.x15
    x16 := frame.x16, x17 := frame.x17, x18 := frame.x18, x19 := frame.x19
    x20 := frame.x20, x21 := frame.x21, x22 := frame.x22, x23 := frame.x23
    x24 := frame.x24, x25 := frame.x25, x26 := frame.x26, x27 := frame.x27
    x28 := frame.x28, x29_fp := frame.x29, x30_lr := frame.x30_lr
    pc := frame.elr_el1, pstate := frame.spsr_el1 }

/-- The register copy context-to-frame done by scheduler_switch_task
(src/arch/aarch64/scheduler.rs lines 317 to 354): the new frame is
populated entirely from the incoming context, SP_EL0 takes the context
SP, ELR_EL1 the PC and SPSR_EL1 the PSTATE. -/
def frameOfContext (ctx : TaskContext) : ExceptionFrame :=
  ⟨ctx.x0, ctx.x1, ctx.x2, ctx.x3, ctx.x4, ctx.x5, ctx.x6, ctx.x7,
   ctx.x8, ctx.x9, ctx.x10, ctx.x11, ctx.x12, ctx.x13, ctx.x14, ctx.x15,
   ctx.x16, ctx.x17, ctx.x18, ctx.x19, ctx.x20, ctx.x21, ctx.x22, ctx.x23,
   ctx.x24, ctx.x25, ctx.x26, ctx.x27, ctx.x28, ctx.x29_fp, ctx.x30_lr,
   ctx.sp, ctx.pc, ctx.pstate⟩

/-- Task control block (src/arch/aarch64/scheduler.rs, struct Task;
named KTask here because Lean's core already declares Task), without
the 16 KiB stack byte array. -/
structure KTask where
  context : TaskContext
  state : TaskState
  id : Nat
deriving DecidableEq, Repr

/-- Task::new (src/arch/aarch64/scheduler.rs lines 38 to 45): zeroed
context, state Blocked, id 0. -/
def KTask.new : KTask :=
  ⟨TaskContext.new, TaskState.blocked, 0⟩

/-- Scheduler state (src/arch/aarch64/scheduler.rs, struct Scheduler):
the fixed task array (length MAX_TASKS = 8 in every reachable state),
the task count and the current index. -/
structure Scheduler where
  tasks : List KTask
  num_tasks : Nat
  current_task : Nat
deriving DecidableEq, Repr

/-- Task at index `i` (array indexing in the source). -/
def Scheduler.taskAt (s : Scheduler) (i : Nat) : KTask :=
  s.tasks.getD i KTask.new

/-- Whether the task at index `i` is Ready. -/
def Scheduler.readyAt (s : Scheduler) (i : Nat) : Prop :=
  (s.taskAt i).state = TaskState.ready

instance (s : Scheduler) (i : Nat) : Decidable (s.readyAt i) := by
  unfold Scheduler.readyAt; infer_instance

/-- Overwrite the task at index `i`. -/
def Scheduler.setTask (s : Scheduler) (i : Nat) (t : KTask) : Scheduler :=
  { s with tasks := s.tasks.set i t }

/-- The loop body of Scheduler::schedule (src/arch/aarch64/scheduler.rs
lines 119 to 130): repeatedly step current to (current + 1) mod
num_tasks; break on the first Ready task, or on coming back to the
start index.  `fuel = num_tasks` bounds the iterations: after num_tasks
steps the index is back at the start and the loop breaks. -/
def scheduleLoop (s : Scheduler) (start : Nat) : Nat → Nat → Nat
  | cur, 0 => cur
  | cur, fuel + 1 =>
    if s.readyAt ((cur + 1) % s.num_tasks) then (cur + 1) % s.num_tasks
    else if (cur + 1) % s.num_tasks = start then (cur + 1) % s.num_tasks
    else scheduleLoop s start ((cur + 1) % s.num_tasks) fuel

/-- Scheduler::schedule (src/arch/aarch64/scheduler.rs lines 112 to
131): round-robin advance of current_task. -/
def Scheduler.schedule (s : Scheduler) : Scheduler :=
  if s.num_tasks = 0 then s
  else { s with
    current_task := scheduleLoop s s.current_task s.current_task s.num_tasks }

/-- scheduler_switch_task (src/arch/aarch64/scheduler.rs lines 223 to
360), the IRQ-driven context switch.  Takes the scheduler state, the
context-switch counter and the incoming exception frame; returns the
new scheduler state, the new counter, the frame built for the incoming
task and the address (incoming SP - 272, wrapping u64) it is built at.
Note the source marks the outgoing task Ready unconditionally. -/
def scheduler_switch_task (s : Scheduler) (counter : Nat)
    (frame : ExceptionFrame) : Scheduler × Nat × ExceptionFrame × Nat :=
  let prev_task := s.current_task
  let s1 :=
    if prev_task < s.num_tasks then
      let t := s.taskAt prev_task
      s.setTask prev_task
        { t with context := contextOfFrame frame t.context
                 state := TaskState.ready }
    else s
  let s2 := s1.schedule
  let next_idx := s2.current_task
  let s3 := s2.setTask next_idx { s2.taskAt next_idx with state := TaskState.running }
  let ctx := (s3.taskAt next_idx).context
  (s3, counter + 1, frameOfContext ctx, (ctx.sp + 2 ^ 64 - 272) % 2 ^ 64)

/-! ## GIC v2 driver (src/arch/aarch64/gic.rs)

The driver's effect on the device is its sequence of MMIO writes; the
embedding produces that write trace from the source, and a separate
device model (the distributor and CPU-interface register semantics of
the GICv2 architecture, which the source register names refer to)
interprets the trace.  The essential architectural fact is that
GICD_ISENABLER is a set-enable register: writing a 1 bit ENABLES the
line, and clearing requires the separate GICD_ICENABLER register. -/

def GICD_BASE : Nat := 0x08000000

def GICD_CTLR : Nat := GICD_BASE + 0x000

def GICD_ISENABLER0 : Nat := GICD_BASE + 0x100

def GICD_IPRIORITYR : Nat := GICD_BASE + 0x400

def GICC_BASE : Nat := 0x08010000

def GICC_CTLR : Nat := GICC_BASE + 0x000

def GICC_PMR : Nat := GICC_BASE + 0x004

/-- The MMIO write trace of gic::init (src/arch/aarch64/gic.rs lines 29
to 69), given the value read from GICD_TYPER: disable the distributor,
write 0xFFFFFFFF to each ISENABLER word (the source comment says
"Disable all interrupts"), write the default priority pattern, enable
the distributor, set PMR, enable the CPU interface. -/
def gic_init_writes (typer : Nat) : List (Nat × Nat) :=
  let it_lines_number := typer % 32
  let num_interrupts := (it_lines_number + 1) * 32
  [(GICD_CTLR, 0)]
    ++ (List.range (num_interrupts / 32)).map
        (fun i => (GICD_ISENABLER0 + i * 4, 0xFFFFFFFF))
    ++ (List.range (num_interrupts / 4)).map
        (fun i => (GICD_IPRIORITYR + i * 4, 0xA0A0A0A0))
    ++ [(GICD_CTLR, 1), (GICC_PMR, 0xFF), (GICC_CTLR, 1)]

/-- GICv2 device state observed by the driver: distributor control,
the per-line enable bits (one 32-bit mask per ISENABLER word), the
priority words, the priority mask and the CPU-interface control. -/
structure GicState where
  distCtlr : Nat
  enableMask : List Nat
  prioWords : List Nat
  pmr : Nat
  cpuCtlr : Nat
deriving DecidableEq, Repr

/-- Reset device state: everything disabled, all enable bits clear. -/
def gicReset : GicState :=
  ⟨0, List.replicate 32 0, List.replicate 256 0, 0, 0⟩

/-- Modelled from the GICv2 architecture the source registers name: the
effect of one 32-bit MMIO write on the device.  GICD_ISENABLERn is
write-1-to-set: the written word is OR-ed into the enable bits. -/
def gicApplyWrite (st : GicState) (w : Nat × Nat) : GicState :=
  let addr := w.1
  let val := w.2
  if addr = GICD_CTLR then
    { st with distCtlr := val }
  else if GICD_ISENABLER0 ≤ addr ∧ addr < GICD_ISENABLER0 + 128 then
    let i := (addr - GICD_ISENABLER0) / 4
    { st with enableMask := st.enableMask.set i ((st.enableMask.getD i 0) ||| val) }
  else if GICD_IPRIORITYR ≤ addr ∧ addr < GICD_IPRIORITYR + 1024 then
    let i := (addr - GICD_IPRIORITYR) / 4
    { st with prioWords := st.prioWords.set i val }
  else if addr = GICC_PMR then
    { st with pmr := val }
  else if addr = GICC_CTLR then
    { st with cpuCtlr := val }
  else st

/-- Device state after running gic::init on a device in state `st`. -/
def gic_init (typer : Nat) (st : GicState) : GicState :=
  (gic_init_writes typer).foldl gicApplyWrite st

/-- Whether interrupt line `n` is enabled in the device state. -/
def lineEnabled (st : GicState) (n : Nat) : Bool :=
  Nat.testBit (st.enableMask.getD (n / 32) 0) (n % 32)

/-! ## Concrete states used to exercise the theorems -/

/-- A scheduler with task 0 Blocked, task 1 Ready, the remaining array
slots unused; current task 0. -/
def c2sched : Scheduler :=
  ⟨⟨TaskContext.new, TaskState.blocked, 0⟩ ::
   ⟨TaskContext.new, TaskState.ready, 1⟩ :: List.replicate 6 KTask.new,
   2, 0⟩

/-- An all-zero incoming exception frame. -/
def c2frame : ExceptionFrame := frameOfContext TaskContext.new

/-- A scheduler with states Running, Blocked, Ready on tasks 0, 1, 2. -/
def c3sched : Scheduler :=
  ⟨⟨TaskContext.new, TaskState.running, 0⟩ ::
   ⟨TaskContext.new, TaskState.blocked, 1⟩ ::
   ⟨TaskContext.new, TaskState.ready, 2⟩ :: List.replicate 5 KTask.new,
   3, 0⟩

/-- A two-byte guest memory. -/
def c4mem : List Nat := [0, 0]

/-- An endpoint with id 5, empty queue, task 7 waiting. -/
def c5ep : IpcEndpoint := ⟨5, [], [7], 16⟩

/-- A registry holding only `c5ep`. -/
def c5reg : IpcRegistry := ⟨[c5ep]⟩

/-- Task 7 is Blocked. -/
def c5sts : TaskStates := [(7, TaskState.blocked)]

/-- Two messages from task 0. -/
def c6msgs : List Message := [⟨0, [1], none⟩, ⟨0, [2], none⟩]

/-- Two queued deliveries for client 2. -/
def c7queue : List IpcMessage := [⟨2, [1]⟩, ⟨2, [2]⟩]

/-- Guest invocation oracle whose first invocation fails and whose
later invocations succeed. -/
def c7invoke (n : Nat) : Bool := n != 0

/-- An endpoint with task 3 already waiting. -/
def c9ep : IpcEndpoint := ⟨1, [], [3], 16⟩

/-- A wait-set workload: re-add 3, add 4, drain, re-add 3. -/
def c9ops : List WaiterOp :=
  [WaiterOp.add 3, WaiterOp.add 4, WaiterOp.take, WaiterOp.add 3]

/-- Subscriber registry with clients 2 and 5. -/
def c10subs : List Nat := [2, 5]

/-- A four-byte guest memory. -/
def c10mem : List Nat := [7, 8, 9, 10]

/-! ## Theorems -/

/-- C1: a sandbox instance whose context capability list is empty
receives -1 from sys_ipc_send, for any destination, pointer and
length, and the global IPC delivery queue is returned unchanged — no
message is enqueued. -/
theorem c1_ipc_send_denied_without_capability
    (mem : List Nat) (dest msg_ptr msg_len : Nat) (queue : List IpcMessage) :
    host_sys_ipc_send [] mem dest msg_ptr msg_len queue = (-1, queue) := rfl

/-- C4: every host import that touches guest memory bounds-checks
ptr + len against the memory length before any access; on failure the
i32-returning imports return the negative sentinel -1 and the host
state (subscriber registry, delivery queue) is returned unchanged, and
sys_print logs nothing.  Each right-hand side mentions neither the
memory contents nor the prior host state beyond returning it as is, so
no guest-memory access and no mutation happens on the failure path. -/
theorem c4_oob_no_access_no_mutation :
    (∀ (mem : List Nat) (p l : Nat), p + l > mem.length →
      host_sys_print mem p l = none) ∧
    (∀ (mem : List Nat) (cid p l : Nat) (subs : List Nat),
      p + l > mem.length →
      host_sys_mqtt_subscribe mem cid p l subs = (-1, subs)) ∧
    (∀ (mem : List Nat) (tp tl mp ml : Nat) (subs : List Nat)
       (queue : List IpcMessage),
      tp + tl > mem.length ∨ mp + ml > mem.length →
      host_sys_mqtt_publish mem tp tl mp ml subs queue = (-1, queue)) ∧
    (∀ (caps : List CapabilityId) (mem : List Nat) (dest p l : Nat)
       (queue : List IpcMessage),
      p + l > mem.length →
      host_sys_ipc_send caps mem dest p l queue = (-1, queue)) := by
  refine ⟨?_, ?_, ?_, ?_⟩
  · intro mem p l h
    unfold host_sys_print
    rw [if_pos h]
  · intro mem cid p l subs h
    unfold host_sys_mqtt_subscribe
    rw [if_pos h]
  · intro mem tp tl mp ml subs queue h
    unfold host_sys_mqtt_publish
    rw [if_pos h]
  · intro caps mem dest p l queue h
    unfold host_sys_ipc_send
    by_cases hc : caps.isEmpty
    · rw [if_pos hc]
    · rw [if_neg hc, if_pos h]

/-- Witness for C4 at memory [0, 0] with ptr 1, len 2 (1 + 2 > 2). -/
theorem c4_witness :
    (1 + 2 > c4mem.length) ∧
    host_sys_print c4mem 1 2 = none ∧
    host_sys_mqtt_subscribe c4mem 9 1 2 [] = (-1, []) ∧
    host_sys_mqtt_publish c4mem 0 1 1 2 [] [] = (-1, []) ∧
    host_sys_ipc_send [1] c4mem 9 1 2 [] = (-1, []) :=
  ⟨by decide,
   c4_oob_no_access_no_mutation.1 c4mem 1 2 (by decide),
   c4_oob_no_access_no_mutation.2.1 c4mem 9 1 2 [] (by decide),
   c4_oob_no_access_no_mutation.2.2.1 c4mem 0 1 1 2 [] [] (Or.inr (by decide)),
   c4_oob_no_access_no_mutation.2.2.2 [1] c4mem 9 1 2 [] (by decide)⟩

/-- C2: the IRQ-driven switch scheduler_switch_task marks the outgoing
task Ready UNCONDITIONALLY (src/arch/aarch64/scheduler.rs line 277),
with no Blocked guard, unlike Scheduler::switch_to_next (lines 145 to
147) and unlike the spec; here the outgoing task 0 is Blocked before
the switch and Ready after it. -/
theorem c2_switch_marks_blocked_outgoing_ready :
    (c2sched.taskAt 0).state = TaskState.blocked ∧
    ((scheduler_switch_task c2sched 0 c2frame).1.taskAt 0).state =
      TaskState.ready := by
  constructor
  · rfl
  · rfl

/-- C8: after gic::init on a reset device with a 32-line TYPER, the
distributor is re-enabled but every line, including the timer PPI 30,
ends ENABLED rather than masked: the init loop commented "Disable all
interrupts" writes 0xFFFFFFFF into GICD_ISENABLER0, the
write-1-to-SET-enable register (disabling needs GICD_ICENABLER at
offset 0x180, which the driver never touches). -/
theorem c8_gic_init_enables_lines :
    lineEnabled (gic_init 0 gicReset) 30 = true ∧
    lineEnabled (gic_init 0 gicReset) 0 = true ∧
    (gic_init 0 gicReset).distCtlr = 1 := by
  refine ⟨?_, ?_, ?_⟩ <;> rfl

/-- A chain of successful sends appends the messages, in order, to the
endpoint queue. -/
theorem sendAll_ok_messages :
    ∀ (msgs : List Message) (ep ep' : IpcEndpoint),
      sendAll ep msgs = .ok ep' → ep'.messages = ep.messages ++ msgs := by
  intro msgs
  induction msgs with
  | nil =>
    intro ep ep' h
    simp [sendAll] at h
    subst h
    simp
  | cons m ms ih =>
    intro ep ep' h
    unfold sendAll at h
    cases hs : ep.send m with
    | error e => rw [hs] at h; cases h
    | ok ep1 =>
      rw [hs] at h
      have h1 := ih ep1 ep' h
      unfold IpcEndpoint.send at hs
      by_cases hfull : ep.messages.length ≥ ep.max_queue_size
      · rw [if_pos hfull] at hs; cases hs
      · rw [if_neg hfull] at hs
        cases hs
        simp at h1
        simpa using h1

/-- Draining an endpoint returns its queue front to back. -/
theorem receiveList_drain :
    ∀ (l : List Message) (ep : IpcEndpoint),
      ep.messages = l → receiveList ep l.length = l := by
  intro l
  induction l with
  | nil => intro ep _; rfl
  | cons m ms ih =>
    intro ep h
    show receiveList ep (ms.length + 1) = m :: ms
    unfold receiveList IpcEndpoint.try_receive
    rw [h]
    simpa using ih { ep with messages := ms } rfl

/-- C6: per-endpoint FIFO order.  From an endpoint with an empty
queue, after successful sends of s1 ... sn, successive try_receive
calls return exactly s1 ... sn in send order. -/
theorem c6_endpoint_fifo (ep ep' : IpcEndpoint) (msgs : List Message)
    (hempty : ep.messages = []) (hok : sendAll ep msgs = .ok ep') :
    receiveList ep' msgs.length = msgs := by
  have h1 := sendAll_ok_messages msgs ep ep' hok
  rw [hempty] at h1
  simp at h1
  exact receiveList_drain msgs ep' h1

/-- Witness for C6: two messages through a fresh endpoint come back in
send order. -/
theorem c6_witness : receiveList ⟨1, c6msgs, [], 16⟩ c6msgs.length = c6msgs :=
  c6_endpoint_fifo (IpcEndpoint.new 1) ⟨1, c6msgs, [], 16⟩ c6msgs rfl rfl

/-- add_waiter preserves distinctness of the wait set. -/
theorem add_waiter_nodup (ep : IpcEndpoint) (t : TaskId)
    (h : ep.waiting_tasks.Nodup) : (ep.add_waiter t).waiting_tasks.Nodup := by
  unfold IpcEndpoint.add_waiter
  by_cases hc : ep.waiting_tasks.contains t
  · rw [if_pos hc]; exact h
  · rw [if_neg hc]
    have hnm : t ∉ ep.waiting_tasks := by
      simpa using hc
    simp [List.nodup_append, h, hnm]

/-- Every wait-set operation preserves distinctness. -/
theorem applyWaiterOp_nodup (ep : IpcEndpoint) (op : WaiterOp)
    (h : ep.waiting_tasks.Nodup) : (applyWaiterOp ep op).waiting_tasks.Nodup := by
  cases op with
  | add t => exact add_waiter_nodup ep t h
  | take => simp [applyWaiterOp, IpcEndpoint.take_waiters]

/-- Any sequence of wait-set operations preserves distinctness. -/
theorem applyWaiterOps_nodup :
    ∀ (ops : List WaiterOp) (ep : IpcEndpoint),
      ep.waiting_tasks.Nodup → (applyWaiterOps ep ops).waiting_tasks.Nodup := by
  intro ops
  induction ops with
  | nil => intro ep h; exact h
  | cons op rest ih =>
    intro ep h
    exact ih (applyWaiterOp ep op) (applyWaiterOp_nodup ep op h)

/-- C9: add_waiter on an already-waiting task leaves the wait set
unchanged, and from any endpoint with a duplicate-free wait set, any
sequence of add_waiter and take_waiters operations keeps every task id
present at most once, so a send wakes each waiting task exactly once. -/
theorem c9_waiter_at_most_once (ep : IpcEndpoint) (t : TaskId) :
    (ep.waiting_tasks.contains t → ep.add_waiter t = ep) ∧
    (∀ ops : List WaiterOp, ep.waiting_tasks.Nodup →
      (applyWaiterOps ep ops).waiting_tasks.count t ≤ 1) := by
  constructor
  · intro h
    unfold IpcEndpoint.add_waiter
    rw [if_pos h]
  · intro ops h
    exact List.nodup_iff_count_le_one.mp (applyWaiterOps_nodup ops ep h) t

/-- Witness for C9 at a concrete endpoint and workload. -/
theorem c9_witness :
    (c9ep.add_waiter 3 = c9ep) ∧
    ((applyWaiterOps c9ep c9ops).waiting_tasks.count 3 ≤ 1) :=
  ⟨(c9_waiter_at_most_once c9ep 3).1 (by decide),
   (c9_waiter_at_most_once c9ep 3).2 c9ops (by decide)⟩

/-- C10: sys_mqtt_subscribe is idempotent in the client id — an
already-registered client leaves the registry unchanged — and the
registry stays duplicate-free, so sys_mqtt_publish enqueues exactly
one delivery-queue message per distinct subscribed client and returns
the number of distinct subscribers. -/
theorem c10_subscribe_idempotent_publish_fanout :
    (∀ (mem : List Nat) (cid tp tl : Nat) (subs : List Nat),
      subs.contains cid →
      (host_sys_mqtt_subscribe mem cid tp tl subs).2 = subs) ∧
    (∀ (mem : List Nat) (cid tp tl : Nat) (subs : List Nat),
      subs.Nodup → ((host_sys_mqtt_subscribe mem cid tp tl subs).2).Nodup) ∧
    (∀ (mem : List Nat) (tp tl mp ml : Nat) (subs : List Nat)
       (queue : List IpcMessage),
      subs.Nodup → ¬ (tp + tl > mem.length ∨ mp + ml > mem.length) →
      (∀ c, ((host_sys_mqtt_publish mem tp tl mp ml subs queue).2.drop
          queue.length).countP (fun m => m.dest_client_id == c) =
          if c ∈ subs then 1 else 0) ∧
      (subs.length < 2 ^ 31 →
        (host_sys_mqtt_publish mem tp tl mp ml subs queue).1 =
          subs.length)) := by
  refine ⟨?_, ?_, ?_⟩
  · intro mem cid tp tl subs h
    have hm : cid ∈ subs := by simpa using h
    unfold host_sys_mqtt_subscribe
    by_cases hb : tp + tl > mem.length
    · rw [if_pos hb]
    · rw [if_neg hb]
      simp [hm]
  · intro mem cid tp tl subs h
    unfold host_sys_mqtt_subscribe
    by_cases hb : tp + tl > mem.length
    · rw [if_pos hb]; exact h
    · rw [if_neg hb]
      by_cases hm : cid ∈ subs
      · simpa [hm] using h
      · simp [hm, List.nodup_append, h]
  · intro mem tp tl mp ml subs queue hnd hb
    unfold host_sys_mqtt_publish
    rw [if_neg hb]
    constructor
    · intro c
      simp only [List.drop_left]
      rw [List.countP_map]
      have hcp :
          (fun m => m.dest_client_id == c) ∘
            (fun x => (⟨x, memSlice mem mp ml⟩ : IpcMessage)) =
          (fun x => x == c) := rfl
      rw [hcp]
      by_cases hc : c ∈ subs
      · rw [if_pos hc]
        simpa [List.count] using List.count_eq_one_of_mem hnd hc
      · rw [if_neg hc]
        simpa [List.count] using List.count_eq_zero_of_not_mem hc
    · intro hlt
      show i32ofNat subs.length = subs.length
      unfold i32ofNat
      omega

/-- Witness for C10: registry [2, 5], publish of 2 in-bounds bytes to
a queue already holding one message for client 9. -/
theorem c10_witness :
    (host_sys_mqtt_subscribe c10mem 2 0 2 c10subs).2 = c10subs ∧
    ((host_sys_mqtt_publish c10mem 0 2 1 2 c10subs [⟨9, []⟩]).2.drop
        1).countP (fun m => m.dest_client_id == 2) = 1 ∧
    (host_sys_mqtt_publish c10mem 0 2 1 2 c10subs [⟨9, []⟩]).1 = 2 := by
  have h := c10_subscribe_idempotent_publish_fanout
  have h3 := h.2.2 c10mem 0 2 1 2 c10subs [⟨9, []⟩] (by decide) (by decide)
  refine ⟨h.1 c10mem 2 0 2 c10subs (by decide), ?_, ?_⟩
  · have := h3.1 2
    simpa using this
  · have := h3.2 (by decide)
    simpa using this

/-- Setting the state of another task does not change task t. -/
theorem getState_setState_ne (t u : TaskId) (s : TaskState) (h : t ≠ u) :
    ∀ sts : TaskStates, getState (setState sts u s) t = getState sts t := by
  intro sts
  induction sts with
  | nil => rfl
  | cons p rest ih =>
    obtain ⟨k, v⟩ := p
    by_cases hk : k = t
    · subst hk
      have : ¬ k = u := h ∘ Eq.symm ∘ Eq.symm  -- k = t so k ≠ u
      simp [setState, getState, List.find?, this]
    · by_cases hku : k = u
      · subst hku
        simpa [setState, getState, List.find?, hk] using ih
      · simpa [setState, getState, List.find?, hk, hku] using ih

/-- Setting the state of task t changes its recorded state, as long as
t is recorded at all. -/
theorem getState_setState_self (t : TaskId) (s v : TaskState) :
    ∀ sts : TaskStates, getState sts t = some v →
      getState (setState sts t s) t = some s := by
  intro sts
  induction sts with
  | nil => intro h; cases h
  | cons p rest ih =>
    obtain ⟨k, w⟩ := p
    by_cases hk : k = t
    · subst hk
      intro _
      simp [setState, getState, List.find?]
    · intro h
      have h' : getState rest t = some v := by
        simpa [getState, List.find?, hk] using h
      simpa [setState, getState, List.find?, hk] using ih h'

/-- Waking a different task does not change task t. -/
theorem getState_unblock_of_ne (sts : TaskStates) (t u : TaskId) (h : t ≠ u) :
    getState (unblock_task sts u) t = getState sts t := by
  unfold unblock_task
  by_cases hb : getState sts u = some TaskState.blocked
  · rw [if_pos hb]; exact getState_setState_ne t u TaskState.ready h sts
  · rw [if_neg hb]

/-- Waking a Blocked task makes it Ready. -/
theorem getState_unblock_self (sts : TaskStates) (t : TaskId)
    (h : getState sts t = some TaskState.blocked) :
    getState (unblock_task sts t) t = some TaskState.ready := by
  unfold unblock_task
  rw [if_pos h]
  exact getState_setState_self t TaskState.ready TaskState.blocked sts h

/-- A Ready task stays Ready across any wake. -/
theorem getState_unblock_ready (sts : TaskStates) (t u : TaskId)
    (h : getState sts t = some TaskState.ready) :
    getState (unblock_task sts u) t = some TaskState.ready := by
  by_cases htu : t = u
  · subst htu
    unfold unblock_task
    rw [if_neg (by rw [h]; intro hc; cases hc)]
    exact h
  · rw [getState_unblock_of_ne sts t u htu]; exact h

/-- A Ready task stays Ready across any sequence of wakes. -/
theorem foldl_unblock_ready :
    ∀ (l : List TaskId) (sts : TaskStates) (t : TaskId),
      getState sts t = some TaskState.ready →
      getState (l.foldl unblock_task sts) t = some TaskState.ready := by
  intro l
  induction l with
  | nil => intro sts t h; exact h
  | cons u rest ih =>
    intro sts t h
    exact ih (unblock_task sts u) t (getState_unblock_ready sts t u h)

/-- Waking every task of a list makes each of its Blocked tasks
Ready. -/
theorem foldl_unblock_wakes :
    ∀ (l : List TaskId) (sts : TaskStates) (t : TaskId), t ∈ l →
      getState sts t = some TaskState.blocked →
      getState (l.foldl unblock_task sts) t = some TaskState.ready := by
  intro l
  induction l with
  | nil => intro sts t hmem; cases hmem
  | cons u rest ih =>
    intro sts t hmem hb
    simp only [List.foldl_cons]
    by_cases htu : t = u
    · subst htu
      exact foldl_unblock_ready rest (unblock_task sts t) t
        (getState_unblock_self sts t hb)
    · have hb' : getState (unblock_task sts u) t = some TaskState.blocked := by
        rw [getState_unblock_of_ne sts t u htu]; exact hb
      have hmem' : t ∈ rest := by
        cases hmem with
        | head => exact absurd rfl htu
        | tail _ hm => exact hm
      exact ih (unblock_task sts u) t hmem' hb'

/-- C5: send_message fails MessageTooLarge on a payload over 4096
bytes, EndpointNotFound when the capability resolves to no endpoint,
QueueFull when the endpoint already holds 16 messages — in each case
returning the registry and the task states untouched — and on success
appends the message to the endpoint queue, drains the wait set and
transitions every waiting Blocked task to Ready. -/
theorem c5_send_message_semantics
    (sender : TaskId) (cap : CapabilityId) (data : List Nat)
    (reg : IpcRegistry) (sts : TaskStates) :
    (data.length > 4096 →
      send_message sender cap data (some reg) sts =
        (.error .messageTooLarge, some reg, sts)) ∧
    (data.length ≤ 4096 → reg.get_endpoint cap = none →
      send_message sender cap data (some reg) sts =
        (.error .endpointNotFound, some reg, sts)) ∧
    (∀ ep : IpcEndpoint, data.length ≤ 4096 →
      reg.get_endpoint cap = some ep →
      ep.messages.length ≥ 16 → ep.max_queue_size = 16 →
      send_message sender cap data (some reg) sts =
        (.error .queueFull, some reg, sts)) ∧
    (∀ ep : IpcEndpoint, data.length ≤ 4096 →
      reg.get_endpoint cap = some ep →
      ep.messages.length < 16 → ep.max_queue_size = 16 →
      send_message sender cap data (some reg) sts =
        (.ok (), some ⟨updateEndpoint cap
            ⟨ep.id, ep.messages ++ [⟨sender, data, none⟩], [],
             ep.max_queue_size⟩ reg.endpoints⟩,
         ep.waiting_tasks.foldl unblock_task sts) ∧
      (∀ t : TaskId, t ∈ ep.waiting_tasks →
        getState sts t = some TaskState.blocked →
        getState (ep.waiting_tasks.foldl unblock_task sts) t =
          some TaskState.ready)) := by
  refine ⟨?_, ?_, ?_, ?_⟩
  · intro h
    simp [send_message, Message.new, MAX_MESSAGE_SIZE, h]
  · intro hlen hnone
    have hng : ¬ data.length > MAX_MESSAGE_SIZE := by
      simp [MAX_MESSAGE_SIZE]; omega
    simp [send_message, Message.new, hng, hnone]
  · intro ep hlen hsome hfull hmax
    have hng : ¬ data.length > MAX_MESSAGE_SIZE := by
      simp [MAX_MESSAGE_SIZE]; omega
    have hsend : ep.send ⟨sender, data, none⟩ = .error .queueFull := by
      unfold IpcEndpoint.send
      rw [if_pos (by omega)]
    simp [send_message, Message.new, hng, hsome, hsend]
  · intro ep hlen hsome hroom hmax
    have hng : ¬ data.length > MAX_MESSAGE_SIZE := by
      simp [MAX_MESSAGE_SIZE]; omega
    have hsend : ep.send ⟨sender, data, none⟩ =
        .ok { ep with messages := ep.messages ++ [⟨sender, data, none⟩] } := by
      unfold IpcEndpoint.send
      rw [if_neg (by omega)]
    constructor
    · simp [send_message, Message.new, hng, hsome, hsend,
        IpcEndpoint.take_waiters]
    · intro t hmem hb
      exact foldl_unblock_wakes ep.waiting_tasks sts t hmem hb

/-- Witness for C5: sending one byte to endpoint 5 of `c5reg` wakes
the Blocked waiter, task 7. -/
theorem c5_witness :
    send_message 0 5 [1] (some c5reg) c5sts =
      (.ok (), some ⟨updateEndpoint 5
          ⟨c5ep.id, c5ep.messages ++ [⟨0, [1], none⟩], [],
           c5ep.max_queue_size⟩ c5reg.endpoints⟩,
       c5ep.waiting_tasks.foldl unblock_task c5sts) ∧
    getState (c5ep.waiting_tasks.foldl unblock_task c5sts) 7 =
      some TaskState.ready := by
  have h := (c5_send_message_semantics 0 5 [1] c5reg c5sts).2.2.2 c5ep
    (by decide) (by decide) (by decide) (by decide)
  exact ⟨h.1, h.2 7 (by decide) (by decide)⟩

/-- When no queued message is addressed to `client`, the matching
filter is empty and the non-matching filter is the whole queue. -/
theorem removeFirstFor_none (client : Nat) :
    ∀ queue : List IpcMessage, removeFirstFor client queue = none →
      queue.filter (fun m => m.dest_client_id = client) = [] ∧
      queue.filter (fun m => ¬ m.dest_client_id = client) = queue := by
  intro queue
  induction queue with
  | nil => intro _; exact ⟨rfl, rfl⟩
  | cons m rest ih =>
    intro h
    unfold removeFirstFor at h
    by_cases hm : m.dest_client_id = client
    · rw [if_pos hm] at h; cases h
    · rw [if_neg hm] at h
      have hrest : removeFirstFor client rest = none := by
        cases hr : removeFirstFor client rest with
        | none => rfl
        | some p => rw [hr] at h; cases h
      obtain ⟨ih1, ih2⟩ := ih hrest
      constructor
      · rw [List.filter_cons_of_neg (by simp [hm])]
        exact ih1
      · rw [List.filter_cons_of_pos (by simp [hm]), ih2]

/-- Removing the first message for `client` splits the queue filters:
the match goes to the front of the matching part, the rest is
untouched. -/
theorem removeFirstFor_some (client : Nat) :
    ∀ (queue rest : List IpcMessage) (m : IpcMessage),
      removeFirstFor client queue = some (m, rest) →
      m.dest_client_id = client ∧
      queue.filter (fun x => x.dest_client_id = client) =
        m :: rest.filter (fun x => x.dest_client_id = client) ∧
      queue.filter (fun x => ¬ x.dest_client_id = client) =
        rest.filter (fun x => ¬ x.dest_client_id = client) ∧
      queue.length = rest.length + 1 := by
  intro queue
  induction queue with
  | nil => intro rest m h; cases h
  | cons a tail ih =>
    intro rest m h
    unfold removeFirstFor at h
    by_cases ha : a.dest_client_id = client
    · rw [if_pos ha] at h
      cases h
      simp [List.filter_cons, ha]
    · rw [if_neg ha] at h
      cases hr : removeFirstFor client tail with
      | none => rw [hr] at h; cases h
      | some p =>
        rw [hr] at h
        cases h
        obtain ⟨h1, h2, h3, h4⟩ := ih p.2 p.1 (by rw [hr])
        refine ⟨h1, ?_, ?_, ?_⟩
        · rw [List.filter_cons_of_neg (by simp [ha]), h2,
            List.filter_cons_of_neg (by simp [ha])]
        · rw [List.filter_cons_of_pos (by simp [ha]), h3,
            List.filter_cons_of_pos (by simp [ha])]
        · simp [h4]

/-- The fuelled source loop equals the amended description: process
the matching messages in order, keep the others. -/
theorem deliverLoop_amended (memLen client : Nat) (invoke : Nat → Bool) :
    ∀ (fuel : Nat) (queue : List IpcMessage) (ninv : Nat),
      queue.length ≤ fuel →
      deliverLoop memLen client invoke fuel queue ninv =
        ((deliverAmendedRun memLen invoke
            (queue.filter (fun m => m.dest_client_id = client)) ninv).1,
         queue.filter (fun m => ¬ m.dest_client_id = client),
         (deliverAmendedRun memLen invoke
            (queue.filter (fun m => m.dest_client_id = client)) ninv).2) := by
  intro fuel
  induction fuel with
  | zero =>
    intro queue ninv hle
    have hq : queue = [] := List.length_eq_zero.mp (Nat.le_zero.mp hle)
    subst hq
    rfl
  | succ fuel ih =>
    intro queue ninv hle
    cases hr : removeFirstFor client queue with
    | none =>
      obtain ⟨h1, h2⟩ := removeFirstFor_none client queue hr
      rw [h1, h2]
      simp [deliverLoop, hr, deliverAmendedRun]
    | some p =>
      obtain ⟨m, rest⟩ := p
      obtain ⟨h1, h2, h3, h4⟩ := removeFirstFor_some client queue rest m hr
      have hle' : rest.length ≤ fuel := by omega
      rw [h2, h3]
      by_cases hfit : 1024 + min m.message.length 512 ≤ memLen
      · simp [deliverLoop, hr, deliverAmendedRun, hfit, ih rest (ninv + 1) hle']
      · simp [deliverLoop, hr, deliverAmendedRun, hfit, ih rest ninv hle']

/-- C7 counterexample: with two queued messages for client 2 and an
oracle whose first invocation fails, the claim's stop-at-first-failure
pump (deliver_claim, written from the claim's words) returns 0 and
leaves the second message queued, while the source pump continues past
the failure, delivers the second message and returns 1; the two
disagree at this concrete input. -/
theorem c7_pump_counterexample :
    deliver_claim 2048 2 c7invoke c7queue ≠
      deliver_pending_messages 2048 2 c7invoke c7queue := by decide

/-- C7 amended: deliver_pending_messages pops every message for
client_id in queue order, copies up to 512 bytes of each payload to
guest offset 1024 and invokes subscriber_receive(1024, len); an
invocation failure does NOT stop the pump — the failed message is
merely not counted — and the pump ends when no message for client_id
remains, returning the number of successful invocations and keeping
exactly the other clients' messages. -/
theorem c7_pump_amended (memLen client : Nat) (invoke : Nat → Bool)
    (queue : List IpcMessage) :
    deliver_pending_messages memLen client invoke queue =
      deliver_amended memLen client invoke queue := by
  unfold deliver_pending_messages deliver_amended
  exact deliverLoop_amended memLen client invoke queue.length queue 0
    (Nat.le_refl _)

/-- Stepping an index that is already reduced modulo n. -/
theorem mod_add_one (a n : Nat) : (a % n + 1) % n = (a + 1) % n := by
  conv_lhs => rw [Nat.add_mod]
  conv_rhs => rw [Nat.add_mod]
  simp

/-- For start < n and 1 ≤ m ≤ n, the index start + m wraps back to
start exactly when m = n. -/
theorem add_mod_eq_self (start m n : Nat) (hs : start < n)
    (hm1 : 1 ≤ m) (hm2 : m ≤ n) : (start + m) % n = start ↔ m = n := by
  constructor
  · intro h
    rcases Nat.lt_or_ge (start + m) n with hlt | hge
    · rw [Nat.mod_eq_of_lt hlt] at h
      omega
    · have h2 : start + m - n < n := by omega
      rw [Nat.mod_eq_sub_mod hge, Nat.mod_eq_of_lt h2] at h
      omega
  · intro h
    subst h
    rw [Nat.add_mod_right]
    exact Nat.mod_eq_of_lt hs

/-- Full characterization of the schedule loop: starting the scan at
offset k + 1 from `start`, the loop lands on the first Ready index in
rotational order among offsets k + 1 .. n - 1, and comes back to
`start` when there is none. -/
theorem scheduleLoop_characterize (s : Scheduler) (start : Nat)
    (hn : 0 < s.num_tasks) (hstart : start < s.num_tasks) :
    ∀ (fuel k : Nat), k + fuel = s.num_tasks →
      (∃ j, k + 1 ≤ j ∧ j < s.num_tasks ∧
        s.readyAt ((start + j) % s.num_tasks) ∧
        scheduleLoop s start ((start + k) % s.num_tasks) fuel =
          (start + j) % s.num_tasks ∧
        ∀ i, k + 1 ≤ i → i < j → ¬ s.readyAt ((start + i) % s.num_tasks)) ∨
      ((∀ j, k + 1 ≤ j → j < s.num_tasks →
          ¬ s.readyAt ((start + j) % s.num_tasks)) ∧
        scheduleLoop s start ((start + k) % s.num_tasks) fuel = start) := by
  intro fuel
  induction fuel with
  | zero =>
    intro k hk
    right
    have hkn : k = s.num_tasks := by omega
    subst hkn
    constructor
    · intro j hj1 hj2
      omega
    · show scheduleLoop s start _ 0 = start
      simp only [scheduleLoop]
      rw [Nat.add_mod_right]
      exact Nat.mod_eq_of_lt hstart
  | succ fuel ih =>
    intro k hk
    have hnext : ((start + k) % s.num_tasks + 1) % s.num_tasks =
        (start + (k + 1)) % s.num_tasks := by
      rw [mod_add_one, Nat.add_assoc]
    simp only [scheduleLoop]
    rw [hnext]
    by_cases hready : s.readyAt ((start + (k + 1)) % s.num_tasks)
    · rw [if_pos hready]
      by_cases hk1 : k + 1 < s.num_tasks
      · left
        exact ⟨k + 1, Nat.le_refl _, hk1, hready, rfl,
          by intro i hi1 hi2; omega⟩
      · have hkeq : k + 1 = s.num_tasks := by omega
        right
        constructor
        · intro j hj1 hj2
          omega
        · rw [hkeq, Nat.add_mod_right]
          exact Nat.mod_eq_of_lt hstart
    · rw [if_neg hready]
      by_cases hk1 : k + 1 = s.num_tasks
      · have hst : (start + (k + 1)) % s.num_tasks = start := by
          rw [hk1, Nat.add_mod_right]
          exact Nat.mod_eq_of_lt hstart
        rw [if_pos hst, hst]
        right
        constructor
        · intro j hj1 hj2
          omega
        · rfl
      · have hne : ¬ (start + (k + 1)) % s.num_tasks = start := by
          intro heq
          have := (add_mod_eq_self start (k + 1) s.num_tasks hstart
            (by omega) (by omega)).mp heq
          omega
        rw [if_neg hne]
        rcases ih (k + 1) (by omega) with
          ⟨j, hj1, hj2, hjr, hjeq, hjmin⟩ | ⟨hall, heq⟩
        · left
          refine ⟨j, by omega, hj2, hjr, hjeq, ?_⟩
          intro i hi1 hi2
          by_cases hik : i = k + 1
          · subst hik
            exact hready
          · exact hjmin i (by omega) hi2
        · right
          refine ⟨?_, heq⟩
          intro j hj1 hj2
          by_cases hjk : j = k + 1
          · subst hjk
            exact hready
          · exact hall j (by omega) hj2

/-- C3: with at least one task, schedule() moves current_task to the
first index after it in rotational order (next higher index mod
num_tasks) whose task is Ready, skipping the others; when no task
other than the current one is Ready, current_task is unchanged. -/
theorem c3_schedule_round_robin (s : Scheduler)
    (hn : 0 < s.num_tasks) (hc : s.current_task < s.num_tasks) :
    (∃ j, 1 ≤ j ∧ j < s.num_tasks ∧
      s.readyAt ((s.current_task + j) % s.num_tasks) ∧
      (s.schedule).current_task = (s.current_task + j) % s.num_tasks ∧
      ∀ i, 1 ≤ i → i < j →
        ¬ s.readyAt ((s.current_task + i) % s.num_tasks)) ∨
    ((∀ j, 1 ≤ j → j < s.num_tasks →
        ¬ s.readyAt ((s.current_task + j) % s.num_tasks)) ∧
      (s.schedule).current_task = s.current_task) := by
  have h := scheduleLoop_characterize s s.current_task hn hc
    s.num_tasks 0 (by omega)
  have h0 : (s.current_task + 0) % s.num_tasks = s.current_task := by
    simpa using Nat.mod_eq_of_lt hc
  rw [h0] at h
  have hne : ¬ s.num_tasks = 0 := by omega
  have hsch : (s.schedule).current_task =
      scheduleLoop s s.current_task s.current_task s.num_tasks := by
    unfold Scheduler.schedule
    rw [if_neg hne]
  rw [hsch]
  simpa using h

/-- Witness for C3 at a scheduler with states Running, Blocked, Ready:
schedule advances from index 0 to index 2 (skipping the Blocked task). -/
theorem c3_witness :
    (∃ j, 1 ≤ j ∧ j < c3sched.num_tasks ∧
      c3sched.readyAt ((c3sched.current_task + j) % c3sched.num_tasks) ∧
      (c3sched.schedule).current_task =
        (c3sched.current_task + j) % c3sched.num_tasks ∧
      ∀ i, 1 ≤ i → i < j →
        ¬ c3sched.readyAt ((c3sched.current_task + i) % c3sched.num_tasks)) ∨
    ((∀ j, 1 ≤ j → j < c3sched.num_tasks →
        ¬ c3sched.readyAt ((c3sched.current_task + j) % c3sched.num_tasks)) ∧
      (c3sched.schedule).current_task = c3sched.current_task) :=
  c3_schedule_round_robin c3sched (by decide) (by decide)
